import Mathlib

/-!
Verification development for nbviewer's request handling layer
(src/nbviewer/handlers.py).

URIs and text are embedded as `List Char`; response/cache payload bytes as
`List Nat`.  The handler table at the bottom of handlers.py is a list of
anchored regular expressions tried in order; each pattern is embedded as a
deterministic matcher over the character list (the patterns are
backtracking-free on the inputs they accept, so a deterministic matcher is
faithful).  External collaborators that are not part of the repository
(the cache store, the render function in the .render module, the provider
clients, the jinja templates, the tornado framework dispatch) are modelled
explicitly and documented at their definitions.
-/

namespace NbV

/-- Character class of the regex fragment `[\w\-]` as the source's patterns use
it: ASCII letters, digits, underscore and dash. -/
def isWordDash (c : Char) : Bool :=
  c.isAlphanum || c = '_' || c = '-'

/-- Character class of the regex fragment `[a-fA-F0-9]` (gist ids). -/
def isHexChar (c : Char) : Bool :=
  (decide ('0' ≤ c) && decide (c ≤ '9')) ||
  (decide ('a' ≤ c) && decide (c ≤ 'f')) ||
  (decide ('A' ≤ c) && decide (c ≤ 'F'))

/-- Consume an exact literal prefix, returning the remainder. -/
def dropLit : List Char → List Char → Option (List Char)
  | [], cs => some cs
  | _ :: _, [] => none
  | l :: ls, c :: cs => if c = l then dropLit ls cs else none

/-- Split off the maximal run of non-`'/'` characters (a path segment),
returning it together with the remainder (which is empty or starts with
`'/'`).  This is how a greedy `[^\/]+` group followed by `/` or end of
input captures. -/
def takeSeg : List Char → List Char × List Char
  | [] => ([], [])
  | c :: cs =>
    if c = '/' then ([], c :: cs)
    else
      let r := takeSeg cs
      (c :: r.1, r.2)

/-- Does the string end with `'/'` (the source's `uri.endswith('/')`). -/
def endsSlash : List Char → Bool
  | [] => false
  | [c] => c = '/'
  | _ :: rest => endsSlash rest

/-- The source's `uri.rstrip('/')`: drop every trailing slash. -/
def rstripSlash (cs : List Char) : List Char :=
  (cs.reverse.dropWhile (fun c => c = '/')).reverse

/-- Which entry of the handler table (handlers.py lines 345-366) a request
path matches, with the groups the matched pattern captures. -/
inductive Route where
  | index
  | faq
  | githubRedirect (user repo ref path : List Char)
  | rawGitHubURL (user repo path : List Char)
  | url (secure : List Char) (target : List Char)
  | githubUserAddSlash (user : List Char)
  | githubUser (user : List Char)
  | githubRepoAddSlash (user repo : List Char)
  | githubRepo (user repo : List Char)
  | githubBlobRemoveSlash (user repo ref path : List Char)
  | githubBlob (user repo ref path : List Char)
  | githubTreeAddSlash (user repo ref : List Char)
  | githubTree (user repo ref path : List Char)
  | gist (gistId file : List Char)
  | gistRedirect (gistId file : List Char)
  | notFound
deriving DecidableEq

/-- Pattern `/url[s]?/github\.com/([^\/]+)/([^\/]+)/(?:tree|blob)/([^\/]+)/(.*)`
(GitHubRedirectHandler).  Note the `(?:tree|blob)` group is non-capturing. -/
def matchGithubRedirect (cs : List Char) : Option Route :=
  match dropLit "/url".data cs with
  | none => none
  | some cs1 =>
    let cs2 := match cs1 with
      | 's' :: rest => rest
      | _ => cs1
    match dropLit "/github.com/".data cs2 with
    | none => none
    | some cs3 =>
      let pu := takeSeg cs3
      if pu.1 = [] then none else
      match dropLit "/".data pu.2 with
      | none => none
      | some cs4 =>
        let pr := takeSeg cs4
        if pr.1 = [] then none else
        match dropLit "/".data pr.2 with
        | none => none
        | some cs5 =>
          let cs6opt := match dropLit "tree/".data cs5 with
            | some x => some x
            | none => dropLit "blob/".data cs5
          match cs6opt with
          | none => none
          | some cs6 =>
            let pf := takeSeg cs6
            if pf.1 = [] then none else
            match dropLit "/".data pf.2 with
            | none => none
            | some path => some (.githubRedirect pu.1 pr.1 pf.1 path)

/-- Pattern `/url[s]?/raw\.?github\.com/([^\/]+)/([^\/]+)/(.*)`
(RawGitHubURLHandler). -/
def matchRawGitHubURL (cs : List Char) : Option Route :=
  match dropLit "/url".data cs with
  | none => none
  | some cs1 =>
    let cs2 := match cs1 with
      | 's' :: rest => rest
      | _ => cs1
    match dropLit "/raw".data cs2 with
    | none => none
    | some cs3 =>
      let cs4 := match cs3 with
        | '.' :: rest => rest
        | _ => cs3
      match dropLit "github.com/".data cs4 with
      | none => none
      | some cs5 =>
        let pu := takeSeg cs5
        if pu.1 = [] then none else
        match dropLit "/".data pu.2 with
        | none => none
        | some cs6 =>
          let pr := takeSeg cs6
          if pr.1 = [] then none else
          match dropLit "/".data pr.2 with
          | none => none
          | some path => some (.rawGitHubURL pu.1 pr.1 path)

/-- Pattern `/url([s]?)/(.*)` (URLHandler). -/
def matchURL (cs : List Char) : Option Route :=
  match dropLit "/url".data cs with
  | none => none
  | some cs1 =>
    match cs1 with
    | 's' :: '/' :: rest => some (.url ['s'] rest)
    | '/' :: rest => some (.url [] rest)
    | _ => none

/-- Tail matcher (after the literal `/github/`) for `/github/([\w\-]+)`
(AddSlashHandler). -/
def ghUserTail (t : List Char) : Option Route :=
  let p := takeSeg t
  if p.1 ≠ [] ∧ p.1.all isWordDash ∧ p.2 = [] then
    some (.githubUserAddSlash p.1)
  else none

/-- Tail matcher for `/github/([\w\-]+)/` (GitHubUserHandler). -/
def ghUserSlashTail (t : List Char) : Option Route :=
  let p := takeSeg t
  if p.1 ≠ [] ∧ p.1.all isWordDash ∧ p.2 = ['/'] then
    some (.githubUser p.1)
  else none

/-- Tail matcher for `/github/([\w\-]+)/([\w\-]+)` (AddSlashHandler). -/
def ghRepoTail (t : List Char) : Option Route :=
  let p := takeSeg t
  if p.1 = [] ∨ ¬ p.1.all isWordDash then none else
  match dropLit "/".data p.2 with
  | none => none
  | some t2 =>
    let q := takeSeg t2
    if q.1 ≠ [] ∧ q.1.all isWordDash ∧ q.2 = [] then
      some (.githubRepoAddSlash p.1 q.1)
    else none

/-- Tail matcher for `/github/([\w\-]+)/([\w\-]+)/` (GitHubRepoHandler). -/
def ghRepoSlashTail (t : List Char) : Option Route :=
  let p := takeSeg t
  if p.1 = [] ∨ ¬ p.1.all isWordDash then none else
  match dropLit "/".data p.2 with
  | none => none
  | some t2 =>
    let q := takeSeg t2
    if q.1 ≠ [] ∧ q.1.all isWordDash ∧ q.2 = ['/'] then
      some (.githubRepo p.1 q.1)
    else none

/-- Shared parse of `([\w\-]+)/([^\/]+)/` followed by a literal app segment
(`blob/` or `tree/`): returns user, repo and the remainder after the app
literal. -/
def ghAppTail (app : List Char) (t : List Char) :
    Option (List Char × List Char × List Char) :=
  let p := takeSeg t
  if p.1 = [] ∨ ¬ p.1.all isWordDash then none else
  match dropLit "/".data p.2 with
  | none => none
  | some t2 =>
    let q := takeSeg t2
    if q.1 = [] then none else
    match dropLit ("/".data ++ app ++ "/".data) q.2 with
    | none => none
    | some t3 => some (p.1, q.1, t3)

/-- Tail matcher for `/github/([\w\-]+)/([^\/]+)/blob/([^\/]+)/(.*)/`
(RemoveSlashHandler): the final `(.*)/` forces a trailing slash. -/
def ghBlobSlashTail (t : List Char) : Option Route :=
  match ghAppTail "blob".data t with
  | none => none
  | some (u, r, t3) =>
    let pf := takeSeg t3
    if pf.1 = [] then none else
    match dropLit "/".data pf.2 with
    | none => none
    | some rest =>
      if endsSlash rest then
        some (.githubBlobRemoveSlash u r pf.1 rest.dropLast)
      else none

/-- Tail matcher for `/github/([\w\-]+)/([^\/]+)/blob/([^\/]+)/(.*)`
(GitHubBlobHandler). -/
def ghBlobTail (t : List Char) : Option Route :=
  match ghAppTail "blob".data t with
  | none => none
  | some (u, r, t3) =>
    let pf := takeSeg t3
    if pf.1 = [] then none else
    match dropLit "/".data pf.2 with
    | none => none
    | some rest => some (.githubBlob u r pf.1 rest)

/-- Tail matcher for `/github/([\w\-]+)/([^\/]+)/tree/([^\/]+)`
(AddSlashHandler). -/
def ghTreeNoSlashTail (t : List Char) : Option Route :=
  match ghAppTail "tree".data t with
  | none => none
  | some (u, r, t3) =>
    let pf := takeSeg t3
    if pf.1 ≠ [] ∧ pf.2 = [] then
      some (.githubTreeAddSlash u r pf.1)
    else none

/-- Tail matcher for `/github/([\w\-]+)/([^\/]+)/tree/([^\/]+)/(.*)`
(GitHubTreeHandler). -/
def ghTreeTail (t : List Char) : Option Route :=
  match ghAppTail "tree".data t with
  | none => none
  | some (u, r, t3) =>
    let pf := takeSeg t3
    if pf.1 = [] then none else
    match dropLit "/".data pf.2 with
    | none => none
    | some rest => some (.githubTree u r pf.1 rest)

/-- The eight `/github/...` table entries, in table order. -/
def ghTails (t : List Char) : Option Route :=
  match ghUserTail t with
  | some h => some h
  | none =>
  match ghUserSlashTail t with
  | some h => some h
  | none =>
  match ghRepoTail t with
  | some h => some h
  | none =>
  match ghRepoSlashTail t with
  | some h => some h
  | none =>
  match ghBlobSlashTail t with
  | some h => some h
  | none =>
  match ghBlobTail t with
  | some h => some h
  | none =>
  match ghTreeNoSlashTail t with
  | some h => some h
  | none => ghTreeTail t

/-- All `/github/...` table entries: the shared literal prefix, then the
tails in table order. -/
def matchGithub (cs : List Char) : Option Route :=
  match dropLit "/github/".data cs with
  | none => none
  | some t => ghTails t

/-- Patterns `/gist/([a-fA-F0-9]+)` and `/gist/([a-fA-F0-9]+)/(.*)`
(GistHandler; the second form captures the filename, the first leaves the
handler's filename argument at its empty default). -/
def matchGist (cs : List Char) : Option Route :=
  match dropLit "/gist/".data cs with
  | none => none
  | some t =>
    let p := takeSeg t
    if p.1 = [] ∨ ¬ p.1.all isHexChar then none else
    match p.2 with
    | [] => some (.gist p.1 [])
    | '/' :: rest => some (.gist p.1 rest)
    | _ => none

/-- Patterns `/([a-fA-F0-9]+)` and `/([a-fA-F0-9]+)/(.*)`
(GistRedirectHandler). -/
def matchGistRedirect (cs : List Char) : Option Route :=
  match cs with
  | '/' :: t =>
    let p := takeSeg t
    if p.1 = [] ∨ ¬ p.1.all isHexChar then none else
    match p.2 with
    | [] => some (.gistRedirect p.1 [])
    | '/' :: rest => some (.gistRedirect p.1 rest)
    | _ => none
  | _ => none

/-- The handler table: each anchored pattern is tried in order; the first
match wins; an unmatched path falls through to tornado's default 404. -/
def route (cs : List Char) : Route :=
  if cs = "/".data then .index
  else if cs = "/index.html".data then .index
  else if cs = "/faq".data then .faq
  else
  match matchGithubRedirect cs with
  | some h => h
  | none =>
  match matchRawGitHubURL cs with
  | some h => h
  | none =>
  match matchURL cs with
  | some h => h
  | none =>
  match matchGithub cs with
  | some h => h
  | none =>
  match matchGist cs with
  | some h => h
  | none =>
  match matchGistRedirect cs with
  | some h => h
  | none => .notFound

/-- UTF-8 encoding of one character (the byte sequence python's utf8()
helper produces for it). -/
def utf8Char (c : Char) : List Nat :=
  let n := c.toNat
  if n < 128 then [n]
  else if n < 2048 then [192 + n / 64, 128 + n % 64]
  else if n < 65536 then [224 + n / 4096, 128 + (n / 64) % 64, 128 + n % 64]
  else [240 + n / 262144, 128 + (n / 4096) % 64, 128 + (n / 64) % 64, 128 + n % 64]

/-- UTF-8 encoding of a string, as tornado's utf8() applies it to the
request uri and to the rendered content before caching. -/
def utf8Enc (s : List Char) : List Nat := s.flatMap utf8Char

/-- Strict UTF-8 decoding, as python's bytes.decode('utf8'): rejects stray
or missing continuation bytes, overlong forms, surrogates and out-of-range
code points. -/
def utf8Dec : List Nat → Option (List Char)
  | [] => some []
  | b :: bs =>
    if b < 128 then
      match utf8Dec bs with
      | none => none
      | some cs => some (Char.ofNat b :: cs)
    else if b < 192 then none
    else if b < 224 then
      match bs with
      | b2 :: rest =>
        if 128 ≤ b2 ∧ b2 < 192 then
          let n := (b - 192) * 64 + (b2 - 128)
          if n < 128 then none
          else
            match utf8Dec rest with
            | none => none
            | some cs => some (Char.ofNat n :: cs)
        else none
      | [] => none
    else if b < 240 then
      match bs with
      | b2 :: b3 :: rest =>
        if (128 ≤ b2 ∧ b2 < 192) ∧ (128 ≤ b3 ∧ b3 < 192) then
          let n := (b - 224) * 4096 + (b2 - 128) * 64 + (b3 - 128)
          if n < 2048 ∨ (55296 ≤ n ∧ n < 57344) then none
          else
            match utf8Dec rest with
            | none => none
            | some cs => some (Char.ofNat n :: cs)
        else none
      | _ => none
    else if b < 248 then
      match bs with
      | b2 :: b3 :: b4 :: rest =>
        if (128 ≤ b2 ∧ b2 < 192) ∧ (128 ≤ b3 ∧ b3 < 192) ∧
            (128 ≤ b4 ∧ b4 < 192) then
          let n := (b - 240) * 262144 + (b2 - 128) * 4096 +
            (b3 - 128) * 64 + (b4 - 128)
          if n < 65536 ∨ 1114111 < n then none
          else
            match utf8Dec rest with
            | none => none
            | some cs => some (Char.ofNat n :: cs)
        else none
      | _ => none
    else none

/-- Value of one base64 alphabet character. -/
def b64val (c : Char) : Option Nat :=
  if decide ('A' ≤ c) && decide (c ≤ 'Z') then some (c.toNat - 65)
  else if decide ('a' ≤ c) && decide (c ≤ 'z') then some (c.toNat - 71)
  else if decide ('0' ≤ c) && decide (c ≤ '9') then some (c.toNat + 4)
  else if c = '+' then some 62
  else if c = '/' then some 63
  else none

/-- Decode base64 quartets into bytes; `=` padding is accepted only at the
end; a leftover group whose length is not a multiple of four is the
"incorrect padding" failure. -/
def b64groups : List Char → Option (List Nat)
  | [] => some []
  | [a, b, '=', '='] =>
    match b64val a, b64val b with
    | some va, some vb => some [va * 4 + vb / 16]
    | _, _ => none
  | [a, b, c, '='] =>
    match b64val a, b64val b, b64val c with
    | some va, some vb, some vc =>
      some [va * 4 + vb / 16, (vb % 16) * 16 + vc / 4]
    | _, _, _ => none
  | a :: b :: c :: d :: rest =>
    match b64val a, b64val b, b64val c, b64val d, b64groups rest with
    | some va, some vb, some vc, some vd, some tail =>
      some ((va * 4 + vb / 16) :: ((vb % 16) * 16 + vc / 4) ::
        ((vc % 4) * 64 + vd) :: tail)
    | _, _, _, _, _ => none
  | _ => none

/-- Modelled from the spec: base64 decoding of provider file content (spec
4.2 and the spec's design note that the source's deprecated
base64.decodestring routine means standard base64 decoding).  Like the
underlying binascii routine, characters outside the alphabet are skipped
and incorrect padding is the failure case, reported here as none. -/
def b64decode (s : List Char) : Option (List Nat) :=
  b64groups (s.filter (fun c => (b64val c).isSome || c = '='))

/-- Modelled from the spec: one cache entry — key, value bytes and an
absolute expiry timestamp (spec section 3, CacheEntry). -/
structure CacheEntry where
  value : List Nat
  expireAt : Nat
deriving DecidableEq

/-- The cache store contents: newest entry for a key first. -/
abbrev CacheMap := List (List Nat × CacheEntry)

/-- First entry stored under a key. -/
def cacheLookup (key : List Nat) : CacheMap → Option CacheEntry
  | [] => none
  | kv :: rest => if kv.1 = key then some kv.2 else cacheLookup key rest

/-- Modelled from the spec: cache get — the stored bytes while the current
time is before the entry's absolute expiry, absent otherwise (spec 4.4 and
the TTL glossary entry: after the TTL elapses the entry is stale and the
lookup misses). -/
def cacheGet (cache : CacheMap) (key : List Nat) (now : Nat) :
    Option (List Nat) :=
  match cacheLookup key cache with
  | some e => if now < e.expireAt then some e.value else none
  | none => none

/-- Modelled from the spec: cache set-with-expiry, overwriting wholesale
(spec 3 and 4.4). -/
def cacheSet (cache : CacheMap) (key value : List Nat) (expireAt : Nat) :
    CacheMap :=
  (key, ⟨value, expireAt⟩) :: cache

/-- Exceptions that can escape a handler body to tornado's dispatch:
tornado.web.HTTPError raised deliberately by the source, and the uncaught
ones — tornado.httpclient.HTTPError from response.rethrow(), KeyError from
a missing dict key, UnicodeDecodeError from bytes.decode. -/
inductive Exn where
  | webHTTPError (code : Nat)
  | httpclientError (code : Nat)
  | keyError
  | unicodeError
deriving DecidableEq

/-- Tornado request dispatch, modelled from the framework the source runs
on: an uncaught tornado.web.HTTPError produces a response with its own
status code, while every other uncaught exception is logged and produces a
generic 500 — tornado.httpclient.HTTPError is a different class from
tornado.web.HTTPError, so a rethrown fetch failure takes the 500 path. -/
def frameworkStatus : Exn → Nat
  | .webHTTPError code => code
  | _ => 500

/-- Modelled from the spec: a Provider Client call result (spec 4.2) — the
response object the source tests with response.error; on a failure,
response.rethrow() raises tornado.httpclient.HTTPError carrying the
upstream status. -/
inductive Fetched (α : Type) where
  | ok (a : α)
  | failed (code : Nat)

/-- Modelled from the spec: the outcome the Render Offload Pool reports for
one submitted document (spec 4.3) — render_notebook lives in the
repository's .render module, which is not under src/; a malformed document
raises NbFormatError (the spec's ConversionError). -/
inductive RenderOutcome where
  | ok (nbhtml : List Char)
  | malformed

/-- cache_and_finish (handlers.py 77-86): write the content to the
response, then store its UTF-8 bytes in the cache keyed by the UTF-8 bytes
of the request uri, with absolute expiry now + cache_expiry.  Returns the
written bytes and the new cache. -/
def cache_and_finish (uri content : List Char) (now expiry : Nat)
    (cache : CacheMap) : List Nat × CacheMap :=
  (utf8Enc content, cacheSet cache (utf8Enc uri) (utf8Enc content) (now + expiry))

/-- Outcome of a handler body that may finish a notebook: status, response
bytes, resulting cache and how many render-pool submissions were made. -/
structure FinishResult where
  status : Nat
  body : List Nat
  cache : CacheMap
  poolCalls : Nat

/-- finish_notebook (handlers.py 128-142), given the outcome the Render
Offload Pool reports for the submitted document: NbFormatError becomes
web.HTTPError(400) and the cache is left untouched; success renders the
notebook page template (an external jinja template, modelled as the
function tmpl) and calls cache_and_finish. -/
def finish_notebook (_nbjson _url uri : List Char) (now expiry : Nat)
    (cache : CacheMap) (render : RenderOutcome)
    (tmpl : List Char → List Char) : FinishResult :=
  match render with
  | .malformed => ⟨frameworkStatus (.webHTTPError 400), [], cache, 1⟩
  | .ok nbhtml =>
    let cf := cache_and_finish uri (tmpl nbhtml) now expiry cache
    ⟨200, cf.1, cf.2, 1⟩

/-- Everything observable about one request: response status, body bytes,
Content-Type header if set, redirect Location if set, the cache afterwards,
and how many provider fetches and render-pool submissions were made. -/
structure HttpTrace where
  status : Nat
  body : List Nat
  contentType : Option (List Char)
  location : Option (List Char)
  cache : CacheMap
  fetchCalls : Nat
  poolCalls : Nat

/-- URLHandler.get (handlers.py 144-156) behind the cached decorator
(handlers.py 113-125): look the request uri up in the cache and serve a hit
as-is; on a miss fetch the remote url (a fetch failure is rethrown as
tornado.httpclient.HTTPError and escapes uncaught), decode the body as
UTF-8 (a failure escapes uncaught) and hand the document to
finish_notebook. -/
def runURLRequest (secure target uri : List Char) (now expiry : Nat)
    (cache : CacheMap) (fetched : Fetched (List Nat))
    (render : RenderOutcome) (tmpl : List Char → List Char) : HttpTrace :=
  match cacheGet cache (utf8Enc uri) now with
  | some v => ⟨200, v, none, none, cache, 0, 0⟩
  | none =>
    let remoteUrl := "http".data ++ secure ++ "://".data ++ target
    match fetched with
    | .failed code =>
      ⟨frameworkStatus (.httpclientError code), [], none, none, cache, 1, 0⟩
    | .ok body =>
      match utf8Dec body with
      | none => ⟨frameworkStatus .unicodeError, [], none, none, cache, 1, 0⟩
      | some nbjson =>
        let fr := finish_notebook nbjson remoteUrl uri now expiry cache render tmpl
        ⟨fr.status, fr.body, none, none, fr.cache, 1, fr.poolCalls⟩

/-- Modelled from the spec: one file of a fetched gist — the provider's
get_gist returns a mapping filename to content and raw_url (spec 4.2). -/
structure GistFile where
  content : List Char
  raw_url : List Char
deriving DecidableEq

/-- Modelled from the spec: the parsed body of a successful get_gist call —
its id and its files mapping; the mapping is embedded as an association
list in the provider's order, with pairwise-distinct keys as in a parsed
JSON object. -/
structure GistData where
  id : List Char
  files : List (List Char × GistFile)
deriving DecidableEq

/-- Python dict lookup on the files mapping (files[filename] raises
KeyError when absent, here the none case). -/
def lookupFile (key : List Char) : List (List Char × GistFile) → Option GistFile
  | [] => none
  | nf :: rest => if nf.1 = key then some nf.2 else lookupFile key rest

/-- One row of the gist file-listing page (path and link url as
GistHandler builds them). -/
structure GistEntry where
  path : List Char
  url : List Char
deriving DecidableEq

/-- What GistHandler.get decides to do once the gist is fetched. -/
inductive GistOutcome where
  | document (nbjson rawUrl : List Char)
  | listing (entries : List GistEntry)
  | raiseExn (e : Exn)
deriving DecidableEq

/-- GistHandler.get (handlers.py 158-185) after a successful gist fetch:
when the gist has exactly one file that file's name replaces the requested
filename; a non-empty filename is looked up in the files mapping
(files[filename], KeyError when absent) and rendered as a document; the
subsequent elif filename branch that would raise web.HTTPError(404) is
dead code, because it repeats the condition of the branch above it;
with no filename a listing entry is built per file with path = filename
and url = /gist_id/filename.  This definition is the filename selection
(handlers.py 169-170): a single-file gist's filename replaces the request's
filename argument. -/
def gistFilename (filenameParam : List Char)
    (files : List (List Char × GistFile)) : List Char :=
  if files.length = 1 then
    match files with
    | nf :: _ => nf.1
    | [] => filenameParam
  else filenameParam

/-- GistHandler.get continued (handlers.py 171-185): dispatch on the
effective filename — a non-empty filename is looked up with
files[filename] (KeyError when absent); the elif filename branch raising
web.HTTPError(404) repeats the guard above it and is dead; otherwise the
file listing is built. -/
def gistGet (filenameParam : List Char) (data : GistData) : GistOutcome :=
  let gid := data.id
  let files := data.files
  let filename := gistFilename filenameParam files
  if filename ≠ [] then
    match lookupFile filename files with
    | some f => .document f.content f.raw_url
    | none => .raiseExn .keyError
  else if filename ≠ [] then
    .raiseExn (.webHTTPError 404)
  else
    .listing (files.map (fun nf =>
      ⟨nf.1, "/".data ++ (gid ++ ("/".data ++ nf.1))⟩))

/-- Modelled from the spec: one entry of a directory listing returned by
the provider's contents API (spec 4.2): name, path and type, where type
"dir" marks a subdirectory. -/
structure ContentEntry where
  name : List Char
  path : List Char
  type : List Char
deriving DecidableEq

/-- Modelled from the spec: the single-file object returned by the
provider's contents API: name, base64-encoded content and the object's
API url (spec 4.2). -/
structure FileObj where
  name : List Char
  content : List Char
  url : List Char
deriving DecidableEq

/-- Modelled from the spec: a parsed contents API response — either a JSON
list (a directory) or a single object (a file); the source distinguishes
the two with isinstance(contents, list) (spec 4.1 rule 4). -/
inductive Contents where
  | listing (entries : List ContentEntry)
  | file (f : FileObj)
deriving DecidableEq

/-- What GitHubBlobHandler.get decides to do once the contents response is
parsed. -/
inductive BlobOutcome where
  | redirect (target : List Char)
  | notebook (nbjson rawUrl : List Char)
  | rawFile (bytes : List Nat)
  | raiseExn (e : Exn)
deriving DecidableEq

/-- GitHubBlobHandler.get (handlers.py 285-323) after a successful contents
fetch: a list response redirects to the tree form of the same ref and path
with a trailing slash; otherwise the content field is base64-decoded
(failure: web.HTTPError(400)); a name ending in .ipynb is UTF-8 decoded
(failure: web.HTTPError(400)) and handed to finish_notebook with the
raw.github.com url; any other file is served raw. -/
def githubBlobGet (user repo ref path : List Char) (contents : Contents) :
    BlobOutcome :=
  match contents with
  | .listing _ =>
    .redirect ("/github/".data ++ user ++ "/".data ++ repo ++ "/tree/".data ++
      ref ++ "/".data ++ path ++ "/".data)
  | .file f =>
    match b64decode f.content with
    | none => .raiseExn (.webHTTPError 400)
    | some filedata =>
      if ".ipynb".data.isSuffixOf f.name then
        match utf8Dec filedata with
        | none => .raiseExn (.webHTTPError 400)
        | some nbjson =>
          .notebook nbjson ("https://raw.github.com/".data ++ user ++
            "/".data ++ repo ++ "/".data ++ ref ++ "/".data ++ path)
      else .rawFile filedata

/-- What GitHubTreeHandler.get decides to do. -/
inductive TreeOutcome where
  | redirect (target : List Char)
  | page (entries : List ContentEntry)
deriving DecidableEq

/-- GitHubTreeHandler.get (handlers.py 232-282): a uri without a trailing
slash redirects to the uri plus slash before anything else; then the
captured path has its trailing slashes stripped and the contents are
fetched; a non-list response redirects to the blob form at the same ref
and stripped path; a list response serves the directory listing page. -/
def githubTreeGet (uri user repo ref path : List Char)
    (contents : Contents) : TreeOutcome :=
  if endsSlash uri = false then .redirect (uri ++ "/".data)
  else
    let path2 := rstripSlash path
    match contents with
    | .file _ =>
      .redirect ("/github/".data ++ user ++ "/".data ++ repo ++
        "/blob/".data ++ ref ++ "/".data ++ path2)
    | .listing entries => .page entries

/-- GitHubBlobHandler.get behind the cached decorator, as one full request:
cache hit serves the cached bytes; a fetch failure is rethrown uncaught; a
tree redirect and the two decode failures leave the cache untouched; a
non-notebook file is served raw with Content-Type text/plain and no cache
write; a notebook goes through finish_notebook. -/
def runBlobRequest (uri user repo ref path : List Char) (now expiry : Nat)
    (cache : CacheMap) (fetched : Fetched Contents)
    (render : RenderOutcome) (tmpl : List Char → List Char) : HttpTrace :=
  match cacheGet cache (utf8Enc uri) now with
  | some v => ⟨200, v, none, none, cache, 0, 0⟩
  | none =>
    match fetched with
    | .failed code =>
      ⟨frameworkStatus (.httpclientError code), [], none, none, cache, 1, 0⟩
    | .ok contents =>
      match githubBlobGet user repo ref path contents with
      | .redirect target => ⟨302, [], none, some target, cache, 1, 0⟩
      | .raiseExn e => ⟨frameworkStatus e, [], none, none, cache, 1, 0⟩
      | .rawFile bytes =>
        ⟨200, bytes, some "text/plain".data, none, cache, 1, 0⟩
      | .notebook nbjson rawUrl =>
        let fr := finish_notebook nbjson rawUrl uri now expiry cache render tmpl
        ⟨fr.status, fr.body, none, none, fr.cache, 1, fr.poolCalls⟩

/-- One resolver pass, at the routing level: which handler a path reaches
and what that handler does before any provider or cache interaction —
page for the static template handlers, redirect for the handlers that
redirect unconditionally (AddSlashHandler, RemoveSlashHandler, the three
legacy redirect handlers, GitHubRepoHandler) and for GitHubTreeHandler's
trailing-slash self-redirect, dynamic for handlers whose outcome needs
provider or cache data, notFound for an unrouted path. -/
inductive Resolution where
  | page
  | redirect (target : List Char)
  | dynamic (r : Route)
  | notFound
deriving DecidableEq

/-- The static resolution step induced by the handler table and the
handlers' unconditional redirects (handlers.py 187-208, 227-229, 236-238,
332-338, 345-366). -/
def resolveStatic (uri : List Char) : Resolution :=
  match route uri with
  | .index => .page
  | .faq => .page
  | .githubRedirect user repo ref path =>
    .redirect ("/github/".data ++ user ++ "/".data ++ repo ++ "/".data ++
      ref ++ "/".data ++ path)
  | .rawGitHubURL user repo path =>
    .redirect ("/github/".data ++ user ++ "/".data ++ repo ++ "/blob/".data ++ path)
  | .url secure target => .dynamic (.url secure target)
  | .githubUserAddSlash _ => .redirect (uri ++ "/".data)
  | .githubUser user => .dynamic (.githubUser user)
  | .githubRepoAddSlash _ _ => .redirect (uri ++ "/".data)
  | .githubRepo user repo =>
    .redirect ("/github/".data ++ user ++ "/".data ++ repo ++ "/tree/master/".data)
  | .githubBlobRemoveSlash _ _ _ _ => .redirect (rstripSlash uri)
  | .githubBlob user repo ref path => .dynamic (.githubBlob user repo ref path)
  | .githubTreeAddSlash _ _ _ => .redirect (uri ++ "/".data)
  | .githubTree user repo ref path =>
    if endsSlash uri = false then .redirect (uri ++ "/".data)
    else .dynamic (.githubTree user repo ref path)
  | .gist gistId file => .dynamic (.gist gistId file)
  | .gistRedirect gistId file =>
    .redirect (if file = [] then "/gist/".data ++ gistId
      else "/gist/".data ++ gistId ++ "/".data ++ file)
  | .notFound => .notFound

end NbV

namespace NbV

example : route "/".data = .index := by decide
example : route "/faq".data = .faq := by decide
example : route "/github/acme".data = .githubUserAddSlash "acme".data := by decide
example : route "/github/acme/".data = .githubUser "acme".data := by decide
example : route "/github/acme/demo".data = .githubRepoAddSlash "acme".data "demo".data := by decide
example : route "/github/acme/demo/".data = .githubRepo "acme".data "demo".data := by decide
example : route "/github/acme/demo/tree/master".data =
    .githubTreeAddSlash "acme".data "demo".data "master".data := by decide
example : route "/github/acme/demo/tree/master/".data =
    .githubTree "acme".data "demo".data "master".data [] := by decide
example : route "/github/acme/demo/tree/main/src".data =
    .githubTree "acme".data "demo".data "main".data "src".data := by decide
example : route "/github/acme/demo/blob/main/src/a.ipynb".data =
    .githubBlob "acme".data "demo".data "main".data "src/a.ipynb".data := by decide
example : route "/github/acme/demo/blob/main/src/".data =
    .githubBlobRemoveSlash "acme".data "demo".data "main".data "src".data := by decide
example : route "/urls/github.com/acme/demo/blob/main/a.ipynb".data =
    .githubRedirect "acme".data "demo".data "main".data "a.ipynb".data := by decide
example : route "/urls/raw.github.com/acme/demo/main/a.ipynb".data =
    .rawGitHubURL "acme".data "demo".data "main/a.ipynb".data := by decide
example : route "/url/example.com/a.ipynb".data =
    .url [] "example.com/a.ipynb".data := by decide
example : route "/urls/example.com/a.ipynb".data =
    .url ['s'] "example.com/a.ipynb".data := by decide
example : route "/gist/ab12cd34".data = .gist "ab12cd34".data [] := by decide
example : route "/gist/ab12cd34/a.ipynb".data =
    .gist "ab12cd34".data "a.ipynb".data := by decide
example : route "/ab12cd34".data = .gistRedirect "ab12cd34".data [] := by decide
example : route "/ab12cd34/a.ipynb".data =
    .gistRedirect "ab12cd34".data "a.ipynb".data := by decide
example : route "/github/acme/demo/main/a.ipynb".data = .notFound := by decide

/-! Cache store facts used by the cache claims. -/

theorem cacheGet_cacheSet_fresh (c : CacheMap) (k v : List Nat) (e t : Nat)
    (h : t < e) : cacheGet (cacheSet c k v e) k t = some v := by
  simp [cacheGet, cacheSet, cacheLookup, h]

theorem cacheGet_cacheSet_stale (c : CacheMap) (k v : List Nat) (e t : Nat)
    (h : e ≤ t) : cacheGet (cacheSet c k v e) k t = none := by
  simp [cacheGet, cacheSet, cacheLookup]
  omega

theorem cacheGet_none_mono (c : CacheMap) (k : List Nat) (t t2 : Nat)
    (h : cacheGet c k t = none) (htt : t ≤ t2) : cacheGet c k t2 = none := by
  unfold cacheGet at h ⊢
  cases hl : cacheLookup k c with
  | none => rfl
  | some e =>
    rw [hl] at h
    by_cases hlt : t < e.expireAt
    · simp [hlt] at h
    · have h3 : ¬ t2 < e.expireAt := by omega
      simp [h3]

/-- The web.HTTPError(404) branch of GistHandler.get is unreachable: its
guard repeats the guard of the branch above it, so no gist request ever
reaches the intended "No such file in gist" error. -/
theorem gist_notfound_branch_dead (filenameParam : List Char)
    (data : GistData) :
    gistGet filenameParam data ≠ .raiseExn (.webHTTPError 404) := by
  unfold gistGet
  by_cases h : gistFilename filenameParam data.files = []
  · simp [h]
  · cases hl : lookupFile (gistFilename filenameParam data.files) data.files <;>
      simp [h, hl]

/-- C3: the claim fails on the code.  A gist request naming a filename
absent from the files mapping evaluates files[filename], which raises
KeyError; tornado surfaces the uncaught KeyError as a generic 500, not the
404 the claim requires (the raise web.HTTPError(404) branch below it is
dead code).  Evaluated at a concrete gist holding a.ipynb and b.txt with
requested filename c.ipynb. -/
theorem claim_C3_missing_gist_file_is_500 :
    gistGet "c.ipynb".data
      ⟨"ab12cd34".data,
        [("a.ipynb".data, ⟨"nb-a".data, "https://gist/raw/a".data⟩),
         ("b.txt".data, ⟨"text-b".data, "https://gist/raw/b".data⟩)]⟩ =
      .raiseExn .keyError ∧
    frameworkStatus .keyError = 500 ∧ (500 : Nat) ≠ 404 := by
  decide

/-- C4: the claim fails on the code.  On an upstream 404, URLHandler calls
response.rethrow(), which raises tornado.httpclient.HTTPError; that class
is not tornado.web.HTTPError, so the framework surfaces the uncaught
exception as a generic 500 instead of the upstream status.  Evaluated at a
concrete raw-url request with an empty cache. -/
theorem claim_C4_fetch_error_is_500 :
    (runURLRequest [] "example.com/a.ipynb".data
        "/url/example.com/a.ipynb".data 0 60 [] (.failed 404) .malformed
        (fun b => b)).status = 500 ∧
    (runURLRequest [] "example.com/a.ipynb".data
        "/url/example.com/a.ipynb".data 0 60 [] (.failed 404) .malformed
        (fun b => b)).status ≠ 404 := by
  constructor <;> decide

/-- C5: the claim fails on the code.  GitHubRedirectHandler's pattern
matches the tree-or-blob segment with a non-capturing group, and its
redirect target /github/user/repo/ref/path drops that segment, so the
target matches no entry of the handler table and falls through to 404.
Evaluated at the legacy url /urls/github.com/acme/demo/blob/main/a.ipynb. -/
theorem claim_C5_legacy_redirect_target_unrouted :
    resolveStatic "/urls/github.com/acme/demo/blob/main/a.ipynb".data =
      .redirect "/github/acme/demo/main/a.ipynb".data ∧
    resolveStatic "/github/acme/demo/main/a.ipynb".data = .notFound := by
  decide

/-- C7, counterexample: the slash-appending redirect is not idempotent for
a repo root.  Resolving /github/acme/demo redirects to /github/acme/demo/,
and resolving that target redirects again, to
/github/acme/demo/tree/master/ (GitHubRepoHandler), contradicting the
claim that the redirect target does not redirect further. -/
theorem claim_C7_repo_root_redirects_again :
    resolveStatic "/github/acme/demo".data =
      .redirect "/github/acme/demo/".data ∧
    resolveStatic "/github/acme/demo/".data =
      .redirect "/github/acme/demo/tree/master/".data := by
  decide

/-- C6: a blob-form request whose contents response is a listing redirects
to the tree form at the same ref and path (with a trailing slash
appended); a tree-form request with its trailing slash in place whose
contents response is a single object redirects to the blob form at the
same ref and (slash-stripped) path. -/
theorem claim_C6_tree_blob_crosscheck :
    (∀ (user repo ref path : List Char) (entries : List ContentEntry),
      githubBlobGet user repo ref path (.listing entries) =
        .redirect ("/github/".data ++ user ++ "/".data ++ repo ++
          "/tree/".data ++ ref ++ "/".data ++ path ++ "/".data)) ∧
    (∀ (uri user repo ref path : List Char) (f : FileObj),
      endsSlash uri = true →
      githubTreeGet uri user repo ref path (.file f) =
        .redirect ("/github/".data ++ user ++ "/".data ++ repo ++
          "/blob/".data ++ ref ++ "/".data ++ rstripSlash path)) := by
  constructor
  · intro user repo ref path entries
    rfl
  · intro uri user repo ref path f h
    simp [githubTreeGet, h]

/-- C6 witness: the crosscheck evaluated at the spec's concrete scenario
path /github/acme/demo, ref main, path src. -/
theorem claim_C6_tree_blob_crosscheck_witness :
    githubBlobGet "acme".data "demo".data "main".data "src".data
        (.listing []) =
      .redirect "/github/acme/demo/tree/main/src/".data ∧
    githubTreeGet "/github/acme/demo/tree/main/src/".data "acme".data
        "demo".data "main".data "src/".data
        (.file ⟨"a.ipynb".data, [], "u".data⟩) =
      .redirect "/github/acme/demo/blob/main/src".data := by
  constructor
  · exact claim_C6_tree_blob_crosscheck.1 "acme".data "demo".data
      "main".data "src".data []
  · exact claim_C6_tree_blob_crosscheck.2 "/github/acme/demo/tree/main/src/".data
      "acme".data "demo".data "main".data "src/".data
      ⟨"a.ipynb".data, [], "u".data⟩ (by decide)

/-- C8: a gist with exactly one file and no filename segment resolves to
that file's document view; a gist with more than one file and no filename
segment resolves to a listing holding exactly one entry per file, the
entry paths being the pairwise-distinct filenames. -/
theorem claim_C8_gist_resolution :
    (∀ (gid name : List Char) (f : GistFile), name ≠ [] →
      gistGet [] ⟨gid, [(name, f)]⟩ = .document f.content f.raw_url) ∧
    (∀ (gid : List Char) (files : List (List Char × GistFile)),
      1 < files.length → (files.map Prod.fst).Nodup →
      gistGet [] ⟨gid, files⟩ =
        .listing (files.map (fun nf =>
          ⟨nf.1, "/".data ++ (gid ++ ("/".data ++ nf.1))⟩)) ∧
      (files.map (fun nf =>
        (⟨nf.1, "/".data ++ (gid ++ ("/".data ++ nf.1))⟩ : GistEntry))).length =
        files.length ∧
      ((files.map (fun nf =>
        (⟨nf.1, "/".data ++ (gid ++ ("/".data ++ nf.1))⟩ : GistEntry))).map
          GistEntry.path).Nodup) := by
  constructor
  · intro gid name f hne
    simp [gistGet, gistFilename, lookupFile, hne]
  · intro gid files hlen hnd
    have hfn : gistFilename [] files = [] := by
      unfold gistFilename
      rw [if_neg]
      omega
    refine ⟨?_, ?_, ?_⟩
    · simp [gistGet, hfn]
    · simp
    · simpa [List.map_map, Function.comp] using hnd

/-- C8 witness: the spec's concrete scenario — a one-file gist renders the
file, a two-file gist lists both entries. -/
theorem claim_C8_gist_resolution_witness :
    gistGet [] ⟨"ab12".data, [("a.ipynb".data, ⟨"nb".data, "raw".data⟩)]⟩ =
      .document "nb".data "raw".data ∧
    gistGet [] ⟨"cd34".data,
        [("a.ipynb".data, ⟨"nb".data, "ra".data⟩),
         ("b.txt".data, ⟨"tx".data, "rb".data⟩)]⟩ =
      .listing [⟨"a.ipynb".data, "/cd34/a.ipynb".data⟩,
        ⟨"b.txt".data, "/cd34/b.txt".data⟩] := by
  constructor
  · exact claim_C8_gist_resolution.1 "ab12".data "a.ipynb".data
      ⟨"nb".data, "raw".data⟩ (by decide)
  · exact (claim_C8_gist_resolution.2 "cd34".data
      [("a.ipynb".data, ⟨"nb".data, "ra".data⟩),
       ("b.txt".data, ⟨"tx".data, "rb".data⟩)] (by decide) (by decide)).1

/-- C9: on a blob request, a content field that fails base64 decoding, and
a notebook file whose decoded bytes fail UTF-8 decoding, each raise
web.HTTPError(400); tornado maps that to a client-visible 400, and the
exception is distinct from the rethrown fetch error. -/
theorem claim_C9_decode_errors_400 :
    (∀ (user repo ref path : List Char) (f : FileObj),
      b64decode f.content = none →
      githubBlobGet user repo ref path (.file f) =
        .raiseExn (.webHTTPError 400)) ∧
    (∀ (user repo ref path : List Char) (f : FileObj) (bytes : List Nat),
      b64decode f.content = some bytes →
      ".ipynb".data.isSuffixOf f.name = true →
      utf8Dec bytes = none →
      githubBlobGet user repo ref path (.file f) =
        .raiseExn (.webHTTPError 400)) ∧
    frameworkStatus (.webHTTPError 400) = 400 ∧
    (∀ code : Nat, Exn.webHTTPError 400 ≠ Exn.httpclientError code) := by
  refine ⟨?_, ?_, rfl, ?_⟩
  · intro user repo ref path f hb
    simp [githubBlobGet, hb]
  · intro user repo ref path f bytes hb hn hu
    simp [githubBlobGet, hb, hn, hu]
  · intro code h
    cases h

/-- C9 witness: a content field with incorrect base64 padding, and a
notebook whose content decodes to the invalid UTF-8 byte 255. -/
theorem claim_C9_decode_errors_400_witness :
    githubBlobGet "acme".data "demo".data "main".data "x.ipynb".data
        (.file ⟨"x.ipynb".data, "abc".data, "u1".data⟩) =
      .raiseExn (.webHTTPError 400) ∧
    githubBlobGet "acme".data "demo".data "main".data "y.ipynb".data
        (.file ⟨"y.ipynb".data, "/w==".data, "u2".data⟩) =
      .raiseExn (.webHTTPError 400) := by
  constructor
  · exact claim_C9_decode_errors_400.1 "acme".data "demo".data "main".data
      "x.ipynb".data ⟨"x.ipynb".data, "abc".data, "u1".data⟩ (by decide)
  · exact claim_C9_decode_errors_400.2.1 "acme".data "demo".data "main".data
      "y.ipynb".data ⟨"y.ipynb".data, "/w==".data, "u2".data⟩ [255]
      (by decide) (by decide) (by decide)

/-- C10: a successful blob request for a file whose name does not end in
.ipynb responds 200 with the raw base64-decoded bytes, Content-Type
text/plain, no redirect, and leaves the cache untouched, having made one
fetch and no render-pool call. -/
theorem claim_C10_non_notebook_plain
    (uri user repo ref path : List Char) (now expiry : Nat)
    (cache : CacheMap) (f : FileObj) (bytes : List Nat)
    (render : RenderOutcome) (tmpl : List Char → List Char)
    (hmiss : cacheGet cache (utf8Enc uri) now = none)
    (hb : b64decode f.content = some bytes)
    (hn : ".ipynb".data.isSuffixOf f.name = false) :
    runBlobRequest uri user repo ref path now expiry cache
      (.ok (.file f)) render tmpl =
      ⟨200, bytes, some "text/plain".data, none, cache, 1, 0⟩ := by
  simp [runBlobRequest, hmiss, githubBlobGet, hb, hn]

/-- C10 witness: notes.txt whose content base64-decodes to the byte 255 is
served raw as text/plain with no cache write. -/
theorem claim_C10_non_notebook_plain_witness :
    runBlobRequest "/github/acme/demo/blob/main/notes.txt".data "acme".data
      "demo".data "main".data "notes.txt".data 0 60 []
      (.ok (.file ⟨"notes.txt".data, "/w==".data, "u3".data⟩)) .malformed
      (fun b => b) =
      ⟨200, [255], some "text/plain".data, none, [], 1, 0⟩ := by
  exact claim_C10_non_notebook_plain
    "/github/acme/demo/blob/main/notes.txt".data "acme".data "demo".data
    "main".data "notes.txt".data 0 60 []
    ⟨"notes.txt".data, "/w==".data, "u3".data⟩ [255] .malformed (fun b => b)
    (by rfl) (by decide) (by decide)

/-- C2: a document that fails conversion produces the fixed 400 status via
web.HTTPError(400), writes no cache entry, and a subsequent request at the
same key misses the cache again and re-attempts both the fetch and the
render rather than serving an error from cache. -/
theorem claim_C2_conversion_error_uncached
    (secure target uri : List Char) (now now2 expiry : Nat)
    (cache : CacheMap) (body body2 : List Nat) (nbjson nbjson2 : List Char)
    (render2 : RenderOutcome) (tmpl tmpl2 : List Char → List Char)
    (hmiss : cacheGet cache (utf8Enc uri) now = none)
    (hdec : utf8Dec body = some nbjson)
    (hdec2 : utf8Dec body2 = some nbjson2)
    (h12 : now ≤ now2) :
    runURLRequest secure target uri now expiry cache (.ok body) .malformed tmpl =
      ⟨400, [], none, none, cache, 1, 1⟩ ∧
    (runURLRequest secure target uri now2 expiry cache (.ok body2)
      render2 tmpl2).fetchCalls = 1 ∧
    (runURLRequest secure target uri now2 expiry cache (.ok body2)
      render2 tmpl2).poolCalls = 1 := by
  have hmiss2 : cacheGet cache (utf8Enc uri) now2 = none :=
    cacheGet_none_mono _ _ _ _ hmiss h12
  refine ⟨?_, ?_, ?_⟩
  · simp [runURLRequest, hmiss, hdec, finish_notebook, frameworkStatus]
  · cases render2 <;>
      simp [runURLRequest, hmiss2, hdec2, finish_notebook, cache_and_finish]
  · cases render2 <;>
      simp [runURLRequest, hmiss2, hdec2, finish_notebook, cache_and_finish]

/-- C2 witness: a malformed document at a concrete key — 400, cache left
empty, and the follow-up request fetches and renders again. -/
theorem claim_C2_conversion_error_uncached_witness :
    runURLRequest [] "x".data "/url/x".data 0 60 [] (.ok [110]) .malformed
      (fun b => b) = ⟨400, [], none, none, [], 1, 1⟩ ∧
    (runURLRequest [] "x".data "/url/x".data 1 60 [] (.ok [110]) .malformed
      (fun b => b)).fetchCalls = 1 ∧
    (runURLRequest [] "x".data "/url/x".data 1 60 [] (.ok [110]) .malformed
      (fun b => b)).poolCalls = 1 := by
  exact claim_C2_conversion_error_uncached [] "x".data "/url/x".data 0 1 60
    [] [110] [110] "n".data "n".data .malformed (fun b => b) (fun b => b)
    (by rfl) (by decide) (by decide) (by decide)

/-- C1: at a fixed canonical key, a first request that misses the cache
performs one fetch and one render-pool call, responds with the rendered
bytes and populates the cache with them under expiry now + TTL; a second
request at the same key before the TTL elapses responds 200 with
byte-identical content and performs no fetch and no render-pool call,
whatever the provider or renderer would have produced; once the TTL has
elapsed the lookup at that key misses and the next request fetches
again. -/
theorem claim_C1_cache_roundtrip
    (secure target uri : List Char) (now now2 now3 expiry : Nat)
    (cache : CacheMap) (body : List Nat) (nbjson nbhtml : List Char)
    (tmpl tmpl2 : List Char → List Char)
    (fetched2 fetched3 : Fetched (List Nat))
    (render2 render3 : RenderOutcome)
    (hmiss : cacheGet cache (utf8Enc uri) now = none)
    (hdec : utf8Dec body = some nbjson)
    (h2ttl : now2 < now + expiry)
    (h3ttl : now + expiry ≤ now3) :
    runURLRequest secure target uri now expiry cache (.ok body)
        (.ok nbhtml) tmpl =
      ⟨200, utf8Enc (tmpl nbhtml), none, none,
        cacheSet cache (utf8Enc uri) (utf8Enc (tmpl nbhtml)) (now + expiry),
        1, 1⟩ ∧
    runURLRequest secure target uri now2 expiry
        (cacheSet cache (utf8Enc uri) (utf8Enc (tmpl nbhtml)) (now + expiry))
        fetched2 render2 tmpl2 =
      ⟨200, utf8Enc (tmpl nbhtml), none, none,
        cacheSet cache (utf8Enc uri) (utf8Enc (tmpl nbhtml)) (now + expiry),
        0, 0⟩ ∧
    cacheGet
        (cacheSet cache (utf8Enc uri) (utf8Enc (tmpl nbhtml)) (now + expiry))
        (utf8Enc uri) now3 = none ∧
    (runURLRequest secure target uri now3 expiry
        (cacheSet cache (utf8Enc uri) (utf8Enc (tmpl nbhtml)) (now + expiry))
        fetched3 render3 tmpl2).fetchCalls = 1 := by
  have hfresh := cacheGet_cacheSet_fresh cache (utf8Enc uri)
    (utf8Enc (tmpl nbhtml)) (now + expiry) now2 h2ttl
  have hstale := cacheGet_cacheSet_stale cache (utf8Enc uri)
    (utf8Enc (tmpl nbhtml)) (now + expiry) now3 h3ttl
  refine ⟨?_, ?_, hstale, ?_⟩
  · simp [runURLRequest, hmiss, hdec, finish_notebook, cache_and_finish]
  · simp [runURLRequest, hfresh]
  · cases fetched3 with
    | failed code => simp [runURLRequest, hstale]
    | ok b3 =>
      cases hd3 : utf8Dec b3 with
      | none => simp [runURLRequest, hstale, hd3]
      | some nb3 =>
        cases render3 <;>
          simp [runURLRequest, hstale, hd3, finish_notebook, cache_and_finish]

/-- C1 witness: the round trip at a concrete key with TTL 60, second
request at time 30, third at time 60. -/
theorem claim_C1_cache_roundtrip_witness :
    runURLRequest [] "x".data "/url/x".data 0 60 [] (.ok [110])
        (.ok "h".data) (fun b => b) =
      ⟨200, utf8Enc "h".data, none, none,
        cacheSet [] (utf8Enc "/url/x".data) (utf8Enc "h".data) 60, 1, 1⟩ ∧
    runURLRequest [] "x".data "/url/x".data 30 60
        (cacheSet [] (utf8Enc "/url/x".data) (utf8Enc "h".data) 60)
        (.failed 500) .malformed (fun b => b) =
      ⟨200, utf8Enc "h".data, none, none,
        cacheSet [] (utf8Enc "/url/x".data) (utf8Enc "h".data) 60, 0, 0⟩ ∧
    cacheGet (cacheSet [] (utf8Enc "/url/x".data) (utf8Enc "h".data) 60)
        (utf8Enc "/url/x".data) 60 = none ∧
    (runURLRequest [] "x".data "/url/x".data 60 60
        (cacheSet [] (utf8Enc "/url/x".data) (utf8Enc "h".data) 60)
        (.ok [110]) .malformed (fun b => b)).fetchCalls = 1 := by
  exact claim_C1_cache_roundtrip [] "x".data "/url/x".data 0 30 60 60 []
    [110] "n".data "h".data (fun b => b) (fun b => b) (.failed 500)
    (.ok [110]) .malformed .malformed (by rfl) (by decide) (by decide)
    (by decide)

/-! Parsing facts about the pattern matchers, used to settle the
slash-redirect claim over arbitrary user, repo and ref segments. -/

theorem takeSeg_no_slash (u : List Char) (h : '/' ∉ u) :
    takeSeg u = (u, []) := by
  induction u with
  | nil => rfl
  | cons c cs ih =>
    have hc : ¬ c = '/' := fun e => h (by simp [e])
    have hcs : '/' ∉ cs := fun m => h (List.mem_cons_of_mem _ m)
    simp [takeSeg, hc, ih hcs]

theorem takeSeg_slash (u r : List Char) (h : '/' ∉ u) :
    takeSeg (u ++ '/' :: r) = (u, '/' :: r) := by
  induction u with
  | nil => simp [takeSeg]
  | cons c cs ih =>
    have hc : ¬ c = '/' := fun e => h (by simp [e])
    have hcs : '/' ∉ cs := fun m => h (List.mem_cons_of_mem _ m)
    simp [takeSeg, hc, ih hcs]

theorem no_slash_of_all_wordDash (u : List Char)
    (h : u.all isWordDash = true) : '/' ∉ u := by
  intro m
  exact absurd (List.all_eq_true.mp h _ m) (by decide)

theorem endsSlash_append (a b : List Char) (h : endsSlash b = true) :
    endsSlash (a ++ b) = true := by
  induction a with
  | nil => exact h
  | cons c cs ih =>
    cases hcs : cs ++ b with
    | nil =>
      cases b with
      | nil => simp [endsSlash] at h
      | cons d ds => simp at hcs
    | cons d ds =>
      have h2 : endsSlash (d :: ds) = true := by
        rw [← hcs]
        exact ih
      show endsSlash (c :: (cs ++ b)) = true
      rw [hcs]
      simpa [endsSlash] using h2

theorem matchGithub_prefix (t : List Char) :
    matchGithub ("/github/".data ++ t) = ghTails t := rfl

theorem route_github (t : List Char) :
    route ("/github/".data ++ t) = (ghTails t).getD .notFound := by
  have h0a : ('/' :: 'g' :: 'i' :: 't' :: 'h' :: 'u' :: 'b' :: '/' :: t) ≠
      "/".data := by simp
  have h0b : ('/' :: 'g' :: 'i' :: 't' :: 'h' :: 'u' :: 'b' :: '/' :: t) ≠
      "/index.html".data := by simp
  have h0c : ('/' :: 'g' :: 'i' :: 't' :: 'h' :: 'u' :: 'b' :: '/' :: t) ≠
      "/faq".data := by simp
  have h1 : matchGithubRedirect ("/github/".data ++ t) = none := rfl
  have h2 : matchRawGitHubURL ("/github/".data ++ t) = none := rfl
  have h3 : matchURL ("/github/".data ++ t) = none := rfl
  have h5 : matchGist ("/github/".data ++ t) = none := rfl
  have h6 : matchGistRedirect ("/github/".data ++ t) = none := rfl
  show route ('/' :: 'g' :: 'i' :: 't' :: 'h' :: 'u' :: 'b' :: '/' :: t) =
    (ghTails t).getD .notFound
  rw [route]
  rw [if_neg h0a, if_neg h0b, if_neg h0c]
  rw [show matchGithubRedirect ('/' :: 'g' :: 'i' :: 't' :: 'h' :: 'u' :: 'b' :: '/' :: t) = none from h1]
  rw [show matchRawGitHubURL ('/' :: 'g' :: 'i' :: 't' :: 'h' :: 'u' :: 'b' :: '/' :: t) = none from h2]
  rw [show matchURL ('/' :: 'g' :: 'i' :: 't' :: 'h' :: 'u' :: 'b' :: '/' :: t) = none from h3]
  rw [show matchGithub ('/' :: 'g' :: 'i' :: 't' :: 'h' :: 'u' :: 'b' :: '/' :: t) = ghTails t from
    matchGithub_prefix t]
  cases ghTails t with
  | none =>
    rw [show matchGist ('/' :: 'g' :: 'i' :: 't' :: 'h' :: 'u' :: 'b' :: '/' :: t) = none from h5]
    rw [show matchGistRedirect ('/' :: 'g' :: 'i' :: 't' :: 'h' :: 'u' :: 'b' :: '/' :: t) = none from h6]
    rfl
  | some h => rfl

theorem ghUserTail_eq (u : List Char) (hu : u ≠ [])
    (hwu : u.all isWordDash = true) :
    ghUserTail u = some (.githubUserAddSlash u) := by
  simp only [ghUserTail]
  rw [takeSeg_no_slash u (no_slash_of_all_wordDash u hwu)]
  simp [hu, hwu]

theorem ghUserTail_slash (u rest : List Char) (hsu : '/' ∉ u) :
    ghUserTail (u ++ '/' :: rest) = none := by
  simp only [ghUserTail]
  rw [takeSeg_slash u rest hsu]
  simp

theorem ghUserSlashTail_eq (u : List Char) (hu : u ≠ [])
    (hwu : u.all isWordDash = true) :
    ghUserSlashTail (u ++ ['/']) = some (.githubUser u) := by
  simp only [ghUserSlashTail]
  rw [takeSeg_slash u [] (no_slash_of_all_wordDash u hwu)]
  simp [hu, hwu]

theorem ghUserSlashTail_long (u r : List Char) (hsu : '/' ∉ u)
    (hr : r ≠ []) : ghUserSlashTail (u ++ '/' :: r) = none := by
  simp only [ghUserSlashTail]
  rw [takeSeg_slash u r hsu]
  simp [hr]

theorem ghRepoTail_eq (u r : List Char) (hu : u ≠ [])
    (hwu : u.all isWordDash = true) (hr : r ≠ [])
    (hwr : r.all isWordDash = true) :
    ghRepoTail (u ++ '/' :: r) = some (.githubRepoAddSlash u r) := by
  simp only [ghRepoTail]
  rw [takeSeg_slash u r (no_slash_of_all_wordDash u hwu)]
  simp [hu, hwu, dropLit, takeSeg_no_slash r (no_slash_of_all_wordDash r hwr),
    hr, hwr]

theorem ghRepoTail_long (u r rest : List Char) (hu : u ≠ [])
    (hwu : u.all isWordDash = true) (hsr : '/' ∉ r) :
    ghRepoTail (u ++ '/' :: (r ++ '/' :: rest)) = none := by
  simp only [ghRepoTail]
  rw [takeSeg_slash u (r ++ '/' :: rest) (no_slash_of_all_wordDash u hwu)]
  simp [hu, hwu, dropLit, takeSeg_slash r rest hsr]

theorem ghRepoSlashTail_eq (u r : List Char) (hu : u ≠ [])
    (hwu : u.all isWordDash = true) (hr : r ≠ [])
    (hwr : r.all isWordDash = true) :
    ghRepoSlashTail (u ++ '/' :: (r ++ ['/'])) = some (.githubRepo u r) := by
  simp only [ghRepoSlashTail]
  rw [takeSeg_slash u (r ++ ['/']) (no_slash_of_all_wordDash u hwu)]
  simp [hu, hwu, dropLit, takeSeg_slash r [] (no_slash_of_all_wordDash r hwr),
    hr, hwr]

theorem ghRepoSlashTail_long (u r rest : List Char)
    (hwu : u.all isWordDash = true) (hsr : '/' ∉ r) (hrest : rest ≠ []) :
    ghRepoSlashTail (u ++ '/' :: (r ++ '/' :: rest)) = none := by
  simp only [ghRepoSlashTail]
  rw [takeSeg_slash u (r ++ '/' :: rest) (no_slash_of_all_wordDash u hwu)]
  simp [dropLit, takeSeg_slash r rest hsr, hrest]

theorem ghAppTail_tree (u r rest : List Char) (hu : u ≠ [])
    (hwu : u.all isWordDash = true) (hr : r ≠ []) (hsr : '/' ∉ r) :
    ghAppTail "tree".data
      (u ++ '/' :: (r ++ '/' :: 't' :: 'r' :: 'e' :: 'e' :: '/' :: rest)) =
      some (u, r, rest) := by
  simp only [ghAppTail]
  rw [takeSeg_slash u _ (no_slash_of_all_wordDash u hwu)]
  rw [show ("/".data ++ "tree".data ++ "/".data : List Char) =
    ['/', 't', 'r', 'e', 'e', '/'] from rfl]
  simp [hu, hwu, dropLit,
    takeSeg_slash r ('t' :: 'r' :: 'e' :: 'e' :: '/' :: rest) hsr, hr]

theorem ghAppTail_blob_on_tree (u r rest : List Char) (hu : u ≠ [])
    (hwu : u.all isWordDash = true) (hsr : '/' ∉ r) :
    ghAppTail "blob".data
      (u ++ '/' :: (r ++ '/' :: 't' :: 'r' :: 'e' :: 'e' :: '/' :: rest)) =
      none := by
  simp only [ghAppTail]
  rw [takeSeg_slash u _ (no_slash_of_all_wordDash u hwu)]
  rw [show ("/".data ++ "blob".data ++ "/".data : List Char) =
    ['/', 'b', 'l', 'o', 'b', '/'] from rfl]
  simp [hu, hwu, dropLit,
    takeSeg_slash r ('t' :: 'r' :: 'e' :: 'e' :: '/' :: rest) hsr]

theorem ghBlobSlashTail_on_tree (u r rest : List Char) (hu : u ≠ [])
    (hwu : u.all isWordDash = true) (hsr : '/' ∉ r) :
    ghBlobSlashTail
      (u ++ '/' :: (r ++ '/' :: 't' :: 'r' :: 'e' :: 'e' :: '/' :: rest)) =
      none := by
  simp only [ghBlobSlashTail]
  rw [ghAppTail_blob_on_tree u r rest hu hwu hsr]

theorem ghBlobTail_on_tree (u r rest : List Char) (hu : u ≠ [])
    (hwu : u.all isWordDash = true) (hsr : '/' ∉ r) :
    ghBlobTail
      (u ++ '/' :: (r ++ '/' :: 't' :: 'r' :: 'e' :: 'e' :: '/' :: rest)) =
      none := by
  simp only [ghBlobTail]
  rw [ghAppTail_blob_on_tree u r rest hu hwu hsr]

theorem ghTreeNoSlashTail_eq (u r ref : List Char) (hu : u ≠ [])
    (hwu : u.all isWordDash = true) (hr : r ≠ []) (hsr : '/' ∉ r)
    (href : ref ≠ []) (hsref : '/' ∉ ref) :
    ghTreeNoSlashTail
      (u ++ '/' :: (r ++ '/' :: 't' :: 'r' :: 'e' :: 'e' :: '/' :: ref)) =
      some (.githubTreeAddSlash u r ref) := by
  simp only [ghTreeNoSlashTail]
  rw [ghAppTail_tree u r ref hu hwu hr hsr]
  simp [takeSeg_no_slash ref hsref, href]

theorem ghTreeNoSlashTail_slash (u r ref : List Char) (hu : u ≠ [])
    (hwu : u.all isWordDash = true) (hr : r ≠ []) (hsr : '/' ∉ r)
    (hsref : '/' ∉ ref) :
    ghTreeNoSlashTail
      (u ++ '/' :: (r ++ '/' :: 't' :: 'r' :: 'e' :: 'e' :: '/' ::
        (ref ++ ['/']))) = none := by
  simp only [ghTreeNoSlashTail]
  rw [ghAppTail_tree u r (ref ++ ['/']) hu hwu hr hsr]
  simp [takeSeg_slash ref [] hsref]

theorem ghTreeTail_eq (u r ref : List Char) (hu : u ≠ [])
    (hwu : u.all isWordDash = true) (hr : r ≠ [])
    (hsr : '/' ∉ r) (href : ref ≠ []) (hsref : '/' ∉ ref) :
    ghTreeTail
      (u ++ '/' :: (r ++ '/' :: 't' :: 'r' :: 'e' :: 'e' :: '/' ::
        (ref ++ ['/']))) = some (.githubTree u r ref []) := by
  simp only [ghTreeTail]
  rw [ghAppTail_tree u r (ref ++ ['/']) hu hwu hr hsr]
  simp [takeSeg_slash ref [] hsref, href, dropLit]

theorem ghTails_user (u : List Char) (hu : u ≠ [])
    (hwu : u.all isWordDash = true) :
    ghTails u = some (.githubUserAddSlash u) := by
  simp only [ghTails, ghUserTail_eq u hu hwu]

theorem ghTails_userSlash (u : List Char) (hu : u ≠ [])
    (hwu : u.all isWordDash = true) :
    ghTails (u ++ ['/']) = some (.githubUser u) := by
  have hsu := no_slash_of_all_wordDash u hwu
  simp only [ghTails, ghUserTail_slash u [] hsu, ghUserSlashTail_eq u hu hwu]

theorem ghTails_repo (u r : List Char) (hu : u ≠ [])
    (hwu : u.all isWordDash = true) (hr : r ≠ [])
    (hwr : r.all isWordDash = true) :
    ghTails (u ++ '/' :: r) = some (.githubRepoAddSlash u r) := by
  have hsu := no_slash_of_all_wordDash u hwu
  simp only [ghTails, ghUserTail_slash u r hsu,
    ghUserSlashTail_long u r hsu hr, ghRepoTail_eq u r hu hwu hr hwr]

theorem ghTails_repoSlash (u r : List Char) (hu : u ≠ [])
    (hwu : u.all isWordDash = true) (hr : r ≠ [])
    (hwr : r.all isWordDash = true) :
    ghTails (u ++ '/' :: (r ++ ['/'])) = some (.githubRepo u r) := by
  have hsu := no_slash_of_all_wordDash u hwu
  have hsr := no_slash_of_all_wordDash r hwr
  simp only [ghTails, ghUserTail_slash u (r ++ ['/']) hsu,
    ghUserSlashTail_long u (r ++ ['/']) hsu (by simp),
    ghRepoTail_long u r [] hu hwu hsr,
    ghRepoSlashTail_eq u r hu hwu hr hwr]

theorem ghTails_treeNoSlash (u r ref : List Char) (hu : u ≠ [])
    (hwu : u.all isWordDash = true) (hr : r ≠ []) (hsr : '/' ∉ r)
    (href : ref ≠ []) (hsref : '/' ∉ ref) :
    ghTails
      (u ++ '/' :: (r ++ '/' :: 't' :: 'r' :: 'e' :: 'e' :: '/' :: ref)) =
      some (.githubTreeAddSlash u r ref) := by
  have hsu := no_slash_of_all_wordDash u hwu
  simp only [ghTails,
    ghUserTail_slash u (r ++ '/' :: 't' :: 'r' :: 'e' :: 'e' :: '/' :: ref) hsu,
    ghUserSlashTail_long u (r ++ '/' :: 't' :: 'r' :: 'e' :: 'e' :: '/' :: ref)
      hsu (by simp),
    ghRepoTail_long u r ('t' :: 'r' :: 'e' :: 'e' :: '/' :: ref) hu hwu hsr,
    ghRepoSlashTail_long u r ('t' :: 'r' :: 'e' :: 'e' :: '/' :: ref) hwu hsr
      (by simp),
    ghBlobSlashTail_on_tree u r ref hu hwu hsr,
    ghBlobTail_on_tree u r ref hu hwu hsr,
    ghTreeNoSlashTail_eq u r ref hu hwu hr hsr href hsref]

theorem ghTails_tree (u r ref : List Char) (hu : u ≠ [])
    (hwu : u.all isWordDash = true) (hr : r ≠ []) (hsr : '/' ∉ r)
    (href : ref ≠ []) (hsref : '/' ∉ ref) :
    ghTails
      (u ++ '/' :: (r ++ '/' :: 't' :: 'r' :: 'e' :: 'e' :: '/' ::
        (ref ++ ['/']))) = some (.githubTree u r ref []) := by
  have hsu := no_slash_of_all_wordDash u hwu
  simp only [ghTails,
    ghUserTail_slash u
      (r ++ '/' :: 't' :: 'r' :: 'e' :: 'e' :: '/' :: (ref ++ ['/'])) hsu,
    ghUserSlashTail_long u
      (r ++ '/' :: 't' :: 'r' :: 'e' :: 'e' :: '/' :: (ref ++ ['/'])) hsu
      (by simp),
    ghRepoTail_long u r ('t' :: 'r' :: 'e' :: 'e' :: '/' :: (ref ++ ['/']))
      hu hwu hsr,
    ghRepoSlashTail_long u r ('t' :: 'r' :: 'e' :: 'e' :: '/' :: (ref ++ ['/']))
      hwu hsr (by simp),
    ghBlobSlashTail_on_tree u r (ref ++ ['/']) hu hwu hsr,
    ghBlobTail_on_tree u r (ref ++ ['/']) hu hwu hsr,
    ghTreeNoSlashTail_slash u r ref hu hwu hr hsr hsref,
    ghTreeTail_eq u r ref hu hwu hr hsr href hsref]

/-- C7, amended: every path matching a collection route (user root, repo
root, tree root) without a trailing slash redirects to the same path with
a trailing slash appended.  For a user root and a tree root the slashed
target then resolves to its dynamic handler with no further redirect; for
a repo root the slashed target redirects once more, to the repository's
default tree at /github/user/repo/tree/master/, which then resolves to the
tree handler with no further redirect — so repeated resolution converges,
but may need two further resolver passes rather than one. -/
theorem claim_C7_collection_slash_redirects :
    (∀ u : List Char, u ≠ [] → u.all isWordDash = true →
      resolveStatic ("/github/".data ++ u) =
        .redirect (("/github/".data ++ u) ++ "/".data) ∧
      resolveStatic (("/github/".data ++ u) ++ "/".data) =
        .dynamic (.githubUser u)) ∧
    (∀ u r : List Char, u ≠ [] → u.all isWordDash = true → r ≠ [] →
      r.all isWordDash = true →
      resolveStatic ("/github/".data ++ (u ++ '/' :: r)) =
        .redirect (("/github/".data ++ (u ++ '/' :: r)) ++ "/".data) ∧
      resolveStatic (("/github/".data ++ (u ++ '/' :: r)) ++ "/".data) =
        .redirect ("/github/".data ++ u ++ "/".data ++ r ++
          "/tree/master/".data) ∧
      resolveStatic ("/github/".data ++ u ++ "/".data ++ r ++
          "/tree/master/".data) =
        .dynamic (.githubTree u r "master".data [])) ∧
    (∀ u r ref : List Char, u ≠ [] → u.all isWordDash = true → r ≠ [] →
      '/' ∉ r → ref ≠ [] → '/' ∉ ref →
      resolveStatic ("/github/".data ++
          (u ++ '/' :: (r ++ '/' :: 't' :: 'r' :: 'e' :: 'e' :: '/' :: ref))) =
        .redirect (("/github/".data ++
          (u ++ '/' :: (r ++ '/' :: 't' :: 'r' :: 'e' :: 'e' :: '/' :: ref))) ++
          "/".data) ∧
      resolveStatic (("/github/".data ++
          (u ++ '/' :: (r ++ '/' :: 't' :: 'r' :: 'e' :: 'e' :: '/' :: ref))) ++
          "/".data) =
        .dynamic (.githubTree u r ref [])) := by
  refine ⟨?_, ?_, ?_⟩
  · intro u hu hwu
    constructor
    · have hroute : route ("/github/".data ++ u) = .githubUserAddSlash u := by
        rw [route_github, ghTails_user u hu hwu]
        rfl
      unfold resolveStatic
      rw [hroute]
    · simp only [List.append_assoc]
      have hroute : route ("/github/".data ++ (u ++ "/".data)) =
          .githubUser u := by
        rw [route_github]
        have hgh : ghTails (u ++ "/".data) = some (.githubUser u) :=
          ghTails_userSlash u hu hwu
        rw [hgh]
        rfl
      unfold resolveStatic
      rw [hroute]
  · intro u r hu hwu hr hwr
    have hsr := no_slash_of_all_wordDash r hwr
    refine ⟨?_, ?_, ?_⟩
    · have hroute : route ("/github/".data ++ (u ++ '/' :: r)) =
          .githubRepoAddSlash u r := by
        rw [route_github, ghTails_repo u r hu hwu hr hwr]
        rfl
      unfold resolveStatic
      rw [hroute]
    · have harg : ("/github/".data ++ (u ++ '/' :: r)) ++ "/".data =
          "/github/".data ++ (u ++ '/' :: (r ++ "/".data)) := by
        simp only [List.append_assoc, List.cons_append]
      have hroute : route ("/github/".data ++ (u ++ '/' :: (r ++ "/".data))) =
          .githubRepo u r := by
        rw [route_github]
        have hgh : ghTails (u ++ '/' :: (r ++ "/".data)) =
            some (.githubRepo u r) :=
          ghTails_repoSlash u r hu hwu hr hwr
        rw [hgh]
        rfl
      rw [harg]
      unfold resolveStatic
      rw [hroute]
    · have harg : "/github/".data ++ u ++ "/".data ++ r ++
          "/tree/master/".data =
          "/github/".data ++ (u ++ ("/".data ++ (r ++ "/tree/master/".data))) := by
        simp only [List.append_assoc]
      have hroute : route ("/github/".data ++
          (u ++ ("/".data ++ (r ++ "/tree/master/".data)))) =
          .githubTree u r "master".data [] := by
        rw [route_github]
        have hgh : ghTails (u ++ ("/".data ++ (r ++ "/tree/master/".data))) =
            some (.githubTree u r "master".data []) :=
          ghTails_tree u r "master".data hu hwu hr hsr (by decide) (by decide)
        rw [hgh]
        rfl
      have e1 : endsSlash ("/tree/master/".data : List Char) = true := rfl
      have e2 : endsSlash (r ++ "/tree/master/".data) = true :=
        endsSlash_append r "/tree/master/".data e1
      have e3 : endsSlash ("/".data ++ (r ++ "/tree/master/".data)) = true :=
        endsSlash_append "/".data (r ++ "/tree/master/".data) e2
      have e4 : endsSlash (u ++ ("/".data ++ (r ++ "/tree/master/".data))) =
          true :=
        endsSlash_append u ("/".data ++ (r ++ "/tree/master/".data)) e3
      have e5 : endsSlash ("/github/".data ++
          (u ++ ("/".data ++ (r ++ "/tree/master/".data)))) = true :=
        endsSlash_append "/github/".data
          (u ++ ("/".data ++ (r ++ "/tree/master/".data))) e4
      rw [harg]
      unfold resolveStatic
      rw [hroute, e5]
      rfl
  · intro u r ref hu hwu hr hsr href hsref
    constructor
    · have hroute : route ("/github/".data ++
          (u ++ '/' :: (r ++ '/' :: 't' :: 'r' :: 'e' :: 'e' :: '/' :: ref))) =
          .githubTreeAddSlash u r ref := by
        rw [route_github,
          ghTails_treeNoSlash u r ref hu hwu hr hsr href hsref]
        rfl
      unfold resolveStatic
      rw [hroute]
    · have harg : ("/github/".data ++
          (u ++ '/' :: (r ++ '/' :: 't' :: 'r' :: 'e' :: 'e' :: '/' :: ref))) ++
          "/".data =
          "/github/".data ++ (u ++ '/' :: (r ++ '/' :: 't' :: 'r' :: 'e' ::
            'e' :: '/' :: (ref ++ "/".data))) := by
        simp only [List.append_assoc, List.cons_append]
      have hroute : route ("/github/".data ++
          (u ++ '/' :: (r ++ '/' :: 't' :: 'r' :: 'e' :: 'e' :: '/' ::
            (ref ++ "/".data)))) = .githubTree u r ref [] := by
        rw [route_github]
        have hgh : ghTails (u ++ '/' :: (r ++ '/' :: 't' :: 'r' :: 'e' ::
            'e' :: '/' :: (ref ++ "/".data))) =
            some (.githubTree u r ref []) :=
          ghTails_tree u r ref hu hwu hr hsr href hsref
        rw [hgh]
        rfl
      have e0 : endsSlash (ref ++ "/".data) = true :=
        endsSlash_append ref "/".data rfl
      have e1 : endsSlash ('t' :: 'r' :: 'e' :: 'e' :: '/' ::
          (ref ++ "/".data)) = true :=
        endsSlash_append ['t', 'r', 'e', 'e', '/'] (ref ++ "/".data) e0
      have e2 : endsSlash (r ++ '/' :: 't' :: 'r' :: 'e' :: 'e' :: '/' ::
          (ref ++ "/".data)) = true :=
        endsSlash_append r
          ('/' :: 't' :: 'r' :: 'e' :: 'e' :: '/' :: (ref ++ "/".data))
          (endsSlash_append ['/']
            ('t' :: 'r' :: 'e' :: 'e' :: '/' :: (ref ++ "/".data)) e1)
      have e3 : endsSlash (u ++ '/' :: (r ++ '/' :: 't' :: 'r' :: 'e' ::
          'e' :: '/' :: (ref ++ "/".data))) = true :=
        endsSlash_append u
          ('/' :: (r ++ '/' :: 't' :: 'r' :: 'e' :: 'e' :: '/' ::
            (ref ++ "/".data)))
          (endsSlash_append ['/']
            (r ++ '/' :: 't' :: 'r' :: 'e' :: 'e' :: '/' ::
              (ref ++ "/".data)) e2)
      have e4 : endsSlash ("/github/".data ++
          (u ++ '/' :: (r ++ '/' :: 't' :: 'r' :: 'e' :: 'e' :: '/' ::
            (ref ++ "/".data)))) = true :=
        endsSlash_append "/github/".data
          (u ++ '/' :: (r ++ '/' :: 't' :: 'r' :: 'e' :: 'e' :: '/' ::
            (ref ++ "/".data))) e3
      rw [harg]
      unfold resolveStatic
      rw [hroute, e4]
      rfl

/-- C7 witness: the full chains at user acme, repo demo, refs master and
main. -/
theorem claim_C7_collection_slash_redirects_witness :
    resolveStatic "/github/acme".data = .redirect "/github/acme/".data ∧
    resolveStatic "/github/acme/".data =
      .dynamic (.githubUser "acme".data) ∧
    resolveStatic "/github/acme/demo".data =
      .redirect "/github/acme/demo/".data ∧
    resolveStatic "/github/acme/demo/".data =
      .redirect "/github/acme/demo/tree/master/".data ∧
    resolveStatic "/github/acme/demo/tree/master/".data =
      .dynamic (.githubTree "acme".data "demo".data "master".data []) ∧
    resolveStatic "/github/acme/demo/tree/main".data =
      .redirect "/github/acme/demo/tree/main/".data ∧
    resolveStatic "/github/acme/demo/tree/main/".data =
      .dynamic (.githubTree "acme".data "demo".data "main".data []) := by
  have h1 := claim_C7_collection_slash_redirects.1 "acme".data
    (by decide) (by decide)
  have h2 := claim_C7_collection_slash_redirects.2.1 "acme".data "demo".data
    (by decide) (by decide) (by decide) (by decide)
  have h3 := claim_C7_collection_slash_redirects.2.2 "acme".data "demo".data
    "main".data (by decide) (by decide) (by decide) (by decide) (by decide)
    (by decide)
  exact ⟨h1.1, h1.2, h2.1, h2.2.1, h2.2.2, h3.1, h3.2⟩

end NbV
